import Mathlib

/-!
Verification development for the SnarkLab off-chain balance ledger
(rofl-backend: balance.service, transaction.service, wallet.service, and the
zod transfer schema).

The backend is TypeScript running on Node.js.  Its arithmetic on amounts goes
through JavaScript `number` (IEEE 754 binary64) via `parseFloat`,
`Math.floor`, `Number(...)`, `Number.prototype.toString` and `BigInt(...)`.
These are modelled exactly below: an executable round-to-nearest-ties-to-even
at 53 bits of precision over exact rationals, together with the ECMAScript
shortest-round-trip decimal rendering of a double.  Strings, hex/UTF-8 byte
encodings (viem `toBytes`), the sparse-Merkle-tree service state, the durable
key-value store and the transfer orchestration are embedded as executable
Lean functions, threading state and exceptions explicitly.
-/

set_option maxRecDepth 8000

namespace SnarkLab

/-! ## Exact rational arithmetic

Unnormalized fractions with positive denominators; all operations are
primitive integer arithmetic so that concrete evaluation goes through the
kernel. -/

structure Q where
  n : Int
  d : Int
deriving DecidableEq, Repr

def p2 (k : Nat) : Int := Int.ofNat (Nat.pow 2 k)

def p10 (k : Nat) : Int := Int.ofNat (Nat.pow 10 k)

def qofInt (i : Int) : Q := ⟨i, 1⟩

def qzero : Q := ⟨0, 1⟩

def qadd (a b : Q) : Q := ⟨a.n * b.d + b.n * a.d, a.d * b.d⟩

def qsub (a b : Q) : Q := ⟨a.n * b.d - b.n * a.d, a.d * b.d⟩

def qmul (a b : Q) : Q := ⟨a.n * b.n, a.d * b.d⟩

def qneg (a : Q) : Q := ⟨-a.n, a.d⟩

def qdivQ (a b : Q) : Q :=
  let nn := a.n * b.d
  let dd := a.d * b.n
  if dd < 0 then ⟨-nn, -dd⟩ else ⟨nn, dd⟩

def qle (a b : Q) : Bool := decide (a.n * b.d ≤ b.n * a.d)

def qlt (a b : Q) : Bool := decide (a.n * b.d < b.n * a.d)

def qeqb (a b : Q) : Bool := a.n * b.d == b.n * a.d

def qabs (a : Q) : Q := ⟨if a.n < 0 then -a.n else a.n, a.d⟩

/-- Power of two as an exact rational, with an integer exponent. -/
def qpow2 (e : Int) : Q :=
  if 0 ≤ e then ⟨p2 e.toNat, 1⟩ else ⟨1, p2 (-e).toNat⟩

/-- Power of ten as an exact rational, with an integer exponent. -/
def qpow10 (e : Int) : Q :=
  if 0 ≤ e then ⟨p10 e.toNat, 1⟩ else ⟨1, p10 (-e).toNat⟩

/-- Floor of an exact rational (denominators are kept positive). -/
def qfloor (a : Q) : Int := Int.fdiv a.n a.d

/-- Round an exact rational to the nearest integer, ties to even. -/
def qRoundHalfEven (a : Q) : Int :=
  let f := qfloor a
  let twice := qmul (qsub a (qofInt f)) ⟨2, 1⟩
  if qlt twice ⟨1, 1⟩ then f
  else if qlt ⟨1, 1⟩ twice then f + 1
  else if f % 2 == 0 then f else f + 1

/-- Binary search for the exponent e with 2^e ≤ a < 2^(e+1), for a > 0. -/
def ilog2Aux : Nat → Int → Int → Q → Int
  | 0, lo, _, _ => lo
  | fuel + 1, lo, hi, a =>
    if hi ≤ lo + 1 then lo
    else
      let mid := Int.fdiv (lo + hi) 2
      if qle (qpow2 mid) a then ilog2Aux fuel mid hi a
      else ilog2Aux fuel lo mid a

def ilog2 (a : Q) : Int :=
  if qlt a (qpow2 (-1300)) then -1300
  else if qle (qpow2 1300) a then 1300
  else ilog2Aux 16 (-1300) 1300 a

/-- Binary search for the exponent d with 10^d ≤ a < 10^(d+1), for a > 0. -/
def ilog10Aux : Nat → Int → Int → Q → Int
  | 0, lo, _, _ => lo
  | fuel + 1, lo, hi, a =>
    if hi ≤ lo + 1 then lo
    else
      let mid := Int.fdiv (lo + hi) 2
      if qle (qpow10 mid) a then ilog10Aux fuel mid hi a
      else ilog10Aux fuel lo mid a

def ilog10 (a : Q) : Int :=
  if qlt a (qpow10 (-400)) then -400
  else if qle (qpow10 400) a then 400
  else ilog10Aux 12 (-400) 400 a

/-! ## JavaScript numbers (IEEE 754 binary64)

A JS `number` is NaN, ±Infinity, or a finite value; finite values are carried
as exact rationals that are always representable doubles (signed zero is
collapsed to 0, which is adequate for the code paths embedded here).  All
operations round exactly per roundTiesToEven at 53-bit precision with the
binary64 exponent range, which is the semantics ECMAScript prescribes for
`parseFloat`, `+`, `-`, `*`, `/` and `Number(bigint)`. -/

inductive JsNum where
  | nan : JsNum
  | posInf : JsNum
  | negInf : JsNum
  | num (v : Q) : JsNum
deriving DecidableEq, Repr

/-- Round a positive exact rational to the nearest binary64 value. -/
def roundPos (a : Q) : JsNum :=
  let e := ilog2 a
  let pe := max (e - 52) (-1074)
  let m := qRoundHalfEven (qmul a (qpow2 (-pe)))
  if m == 0 then JsNum.num qzero
  else
    let v := qmul (qofInt m) (qpow2 pe)
    if qle (qpow2 1024) v then JsNum.posInf else JsNum.num v

/-- Round any exact rational to the nearest binary64 value. -/
def roundB64 (a : Q) : JsNum :=
  if a.n == 0 then JsNum.num qzero
  else if a.n < 0 then
    match roundPos (qneg a) with
    | JsNum.posInf => JsNum.negInf
    | JsNum.num v => JsNum.num (qneg v)
    | x => x
  else roundPos a

def jsOfInt (i : Int) : JsNum := roundB64 (qofInt i)

def jsNegNum : JsNum → JsNum
  | JsNum.nan => JsNum.nan
  | JsNum.posInf => JsNum.negInf
  | JsNum.negInf => JsNum.posInf
  | JsNum.num v => JsNum.num (qneg v)

def jsAdd : JsNum → JsNum → JsNum
  | JsNum.nan, _ => JsNum.nan
  | _, JsNum.nan => JsNum.nan
  | JsNum.posInf, JsNum.negInf => JsNum.nan
  | JsNum.negInf, JsNum.posInf => JsNum.nan
  | JsNum.posInf, _ => JsNum.posInf
  | _, JsNum.posInf => JsNum.posInf
  | JsNum.negInf, _ => JsNum.negInf
  | _, JsNum.negInf => JsNum.negInf
  | JsNum.num a, JsNum.num b => roundB64 (qadd a b)

def jsSub (a b : JsNum) : JsNum := jsAdd a (jsNegNum b)

def jsIsNeg : JsNum → Bool
  | JsNum.negInf => true
  | JsNum.num v => v.n < 0
  | _ => false

def jsMul : JsNum → JsNum → JsNum
  | JsNum.nan, _ => JsNum.nan
  | _, JsNum.nan => JsNum.nan
  | JsNum.posInf, JsNum.posInf => JsNum.posInf
  | JsNum.posInf, JsNum.negInf => JsNum.negInf
  | JsNum.negInf, JsNum.posInf => JsNum.negInf
  | JsNum.negInf, JsNum.negInf => JsNum.posInf
  | JsNum.posInf, JsNum.num v =>
    if v.n == 0 then JsNum.nan else if v.n < 0 then JsNum.negInf else JsNum.posInf
  | JsNum.num v, JsNum.posInf =>
    if v.n == 0 then JsNum.nan else if v.n < 0 then JsNum.negInf else JsNum.posInf
  | JsNum.negInf, JsNum.num v =>
    if v.n == 0 then JsNum.nan else if v.n < 0 then JsNum.posInf else JsNum.negInf
  | JsNum.num v, JsNum.negInf =>
    if v.n == 0 then JsNum.nan else if v.n < 0 then JsNum.posInf else JsNum.negInf
  | JsNum.num a, JsNum.num b => roundB64 (qmul a b)

def jsDiv : JsNum → JsNum → JsNum
  | JsNum.nan, _ => JsNum.nan
  | _, JsNum.nan => JsNum.nan
  | JsNum.posInf, JsNum.posInf => JsNum.nan
  | JsNum.posInf, JsNum.negInf => JsNum.nan
  | JsNum.negInf, JsNum.posInf => JsNum.nan
  | JsNum.negInf, JsNum.negInf => JsNum.nan
  | JsNum.posInf, JsNum.num v => if v.n < 0 then JsNum.negInf else JsNum.posInf
  | JsNum.negInf, JsNum.num v => if v.n < 0 then JsNum.posInf else JsNum.negInf
  | JsNum.num _, JsNum.posInf => JsNum.num qzero
  | JsNum.num _, JsNum.negInf => JsNum.num qzero
  | JsNum.num a, JsNum.num b =>
    if b.n == 0 then
      if a.n == 0 then JsNum.nan
      else if (a.n < 0) then JsNum.negInf else JsNum.posInf
    else roundB64 (qdivQ a b)

/-- JS `<` comparison: false whenever NaN is involved. -/
def jsLt : JsNum → JsNum → Bool
  | JsNum.nan, _ => false
  | _, JsNum.nan => false
  | JsNum.negInf, JsNum.negInf => false
  | JsNum.negInf, _ => true
  | _, JsNum.negInf => false
  | JsNum.posInf, _ => false
  | _, JsNum.posInf => true
  | JsNum.num a, JsNum.num b => qlt a b

/-- JS `Math.floor`. -/
def jsFloor : JsNum → JsNum
  | JsNum.nan => JsNum.nan
  | JsNum.posInf => JsNum.posInf
  | JsNum.negInf => JsNum.negInf
  | JsNum.num v => JsNum.num (qofInt (qfloor v))

/-! ## Characters, digits and string primitives -/

def isDigitC (c : Char) : Bool := '0' ≤ c && c ≤ '9'

def isHexDigitC (c : Char) : Bool :=
  isDigitC c || ('a' ≤ c && c ≤ 'f') || ('A' ≤ c && c ≤ 'F')

def digVal (c : Char) : Nat := c.toNat - '0'.toNat

def hexVal (c : Char) : Nat :=
  if isDigitC c then c.toNat - '0'.toNat
  else if 'a' ≤ c && c ≤ 'f' then c.toNat - 'a'.toNat + 10
  else c.toNat - 'A'.toNat + 10

/-- Is the first list a prefix of the second? -/
def hasPre : List Char → List Char → Bool
  | [], _ => true
  | _, [] => false
  | p :: ps, c :: cs => p == c && hasPre ps cs

/-- JS `String.prototype.toLowerCase` restricted to ASCII, which is all the
code ever lowercases (addresses, token addresses, db-key fragments). -/
def lowerStr (s : String) : String :=
  ⟨s.data.map (fun c => if 'A' ≤ c && c ≤ 'Z' then Char.ofNat (c.toNat + 32) else c)⟩

def digitsToNat (ds : List Char) : Nat :=
  ds.foldl (fun a c => a * 10 + digVal c) 0

def takeDigits : List Char → List Char × List Char
  | [] => ([], [])
  | c :: cs =>
    if isDigitC c then
      let (ds, rest) := takeDigits cs
      (c :: ds, rest)
    else ([], c :: cs)

def zeros (m : Nat) : List Char := List.replicate m '0'

def natToDecAux : Nat → Nat → List Char → List Char
  | 0, _, acc => acc
  | _, 0, acc => acc
  | fuel + 1, m, acc => natToDecAux fuel (m / 10) (Char.ofNat ('0'.toNat + m % 10) :: acc)

/-- Decimal digits of a natural number (used for JS integer rendering and
JSON serialization of timestamps). -/
def natToDec (m : Nat) : String :=
  if m == 0 then "0" else ⟨natToDecAux 64 m []⟩

def natToHexAux : Nat → Nat → List Char → List Char
  | 0, _, acc => acc
  | _, 0, acc => acc
  | fuel + 1, m, acc =>
    let d := m % 16
    let c := if d < 10 then Char.ofNat ('0'.toNat + d) else Char.ofNat ('a'.toNat + d - 10)
    natToHexAux fuel (m / 16) (c :: acc)

/-- Lowercase hex digits of a natural number, no leading zeros (matches
`BigInt.prototype.toString(16)` for non-negative values). -/
def natToHex (m : Nat) : String :=
  if m == 0 then "0" else ⟨natToHexAux 128 m []⟩

/-- JS `BigInt.prototype.toString(16)`: negative bigints render with a
leading minus sign. -/
def bigIntToHex (i : Int) : String :=
  if i < 0 then "-" ++ natToHex i.natAbs else natToHex i.toNat

/-- Parse a hex digit string to a natural number; `none` when empty or any
character is not a hex digit (models the `SyntaxError` of `BigInt("0x...")`
on malformed input). -/
def parseHexNat (cs : List Char) : Option Nat :=
  if cs.isEmpty then none
  else if cs.all isHexDigitC then some (cs.foldl (fun a c => a * 16 + hexVal c) 0)
  else none

/-! ## ECMAScript `parseFloat` -/

def isWsC (c : Char) : Bool :=
  c == ' ' || c == '\t' || c == '\n' || c == '\r'

def skipWs : List Char → List Char
  | [] => []
  | c :: cs => if isWsC c then skipWs cs else c :: cs

/-- Exponent part of a decimal literal: contributes 0 when there is no
well-formed `[eE][+-]?digits` continuation (that suffix is then simply not
part of the longest parsable prefix). -/
def parseExpPart : List Char → Int
  | 'e' :: rest => parseExpSigned rest
  | 'E' :: rest => parseExpSigned rest
  | _ => 0
where
  parseExpSigned : List Char → Int
    | '+' :: rest => parseExpDigits rest false
    | '-' :: rest => parseExpDigits rest true
    | rest => parseExpDigits rest false
  parseExpDigits (rest : List Char) (neg : Bool) : Int :=
    let (ds, _) := takeDigits rest
    if ds.isEmpty then 0
    else if neg then -(Int.ofNat (digitsToNat ds)) else Int.ofNat (digitsToNat ds)

/-- ECMAScript `parseFloat`: longest numeric prefix after leading whitespace,
NaN when there is none; the exact decimal value is rounded to binary64. -/
def parseFloat (s : String) : JsNum :=
  let cs := skipWs s.data
  let (neg, cs1) :=
    match cs with
    | '+' :: rest => (false, rest)
    | '-' :: rest => (true, rest)
    | rest => (false, rest)
  if hasPre "Infinity".data cs1 then
    if neg then JsNum.negInf else JsNum.posInf
  else
    let (ip, cs2) := takeDigits cs1
    let (fp, cs3) :=
      match cs2 with
      | '.' :: rest => takeDigits rest
      | rest => ([], rest)
    if ip.isEmpty && fp.isEmpty then JsNum.nan
    else
      let ex : Int := parseExpPart cs3 - Int.ofNat fp.length
      let mant : Int := Int.ofNat (digitsToNat (ip ++ fp))
      let signed : Int := if neg then -mant else mant
      roundB64 (qmul (qofInt signed) (qpow10 ex))

/-- Exact rational value of a decimal-string numeral (no binary64 rounding);
used only to state conservation/round-trip properties exactly.  `none` if the
string is not entirely a plain decimal numeral. -/
def decStrToQ (s : String) : Option Q :=
  let (neg, cs1) :=
    match s.data with
    | '+' :: rest => (false, rest)
    | '-' :: rest => (true, rest)
    | rest => (false, rest)
  let (ip, cs2) := takeDigits cs1
  let (fp, cs3) :=
    match cs2 with
    | '.' :: rest => takeDigits rest
    | rest => ([], rest)
  let (ex, cs4) :=
    match cs3 with
    | 'e' :: rest =>
      (match rest with
       | '+' :: r2 => (Int.ofNat (digitsToNat (takeDigits r2).1), (takeDigits r2).2)
       | '-' :: r2 => (-(Int.ofNat (digitsToNat (takeDigits r2).1)), (takeDigits r2).2)
       | r2 => (Int.ofNat (digitsToNat (takeDigits r2).1), (takeDigits r2).2))
    | rest => (0, rest)
  if ip.isEmpty && fp.isEmpty then none
  else if !cs4.isEmpty then none
  else
    let mant : Int := Int.ofNat (digitsToNat (ip ++ fp))
    let signed : Int := if neg then -mant else mant
    some (qmul (qofInt signed) (qpow10 (ex - Int.ofNat fp.length)))

/-! ## ECMAScript `Number.prototype.toString` (radix 10)

The shortest-digits algorithm of the ECMAScript specification: choose the
smallest digit count k (1..17) and digits s, decimal point position n, such
that the binary64 value of s·10^(n−k) is exactly the number; among the
candidates the one closest to the number wins, ties to even. -/

/-- Does the JS number equal (in value) the given finite rational? -/
def jsvEq (a : JsNum) (x : Q) : Bool :=
  match a with
  | JsNum.num v => qeqb v x
  | _ => false

def tsValid (x : Q) (k : Nat) (n : Int) (s : Int) : Bool :=
  decide (p10 (k - 1) ≤ s) && decide (s < p10 k) &&
    jsvEq (roundB64 (qmul (qofInt s) (qpow10 (n - Int.ofNat k)))) x

/-- For digit count k, the candidate (n, s) pair, if one reproduces x.  When
the upper candidate carries over to 10^k it is re-expressed with one more
order of magnitude (s = 10^(k−1), n+1), which denotes the same value. -/
def tsCand (x : Q) (k : Nat) : Option (Int × Nat) :=
  let d := ilog10 x
  let n := d + 1
  let b := qmul x (qpow10 (Int.ofNat k - n))
  let c1 := qfloor b
  let c2 := c1 + 1
  let (n2, s2) := if c2 == p10 k then (n + 1, p10 (k - 1)) else (n, c2)
  match tsValid x k n c1, tsValid x k n2 s2 with
  | true, false => some (n, c1.toNat)
  | false, true => some (n2, s2.toNat)
  | true, true =>
    let d1 := qabs (qsub (qmul (qofInt c1) (qpow10 (n - Int.ofNat k))) x)
    let d2 := qabs (qsub (qmul (qofInt s2) (qpow10 (n2 - Int.ofNat k))) x)
    if qlt d1 d2 then some (n, c1.toNat)
    else if qlt d2 d1 then some (n2, s2.toNat)
    else if c1 % 2 == 0 then some (n, c1.toNat) else some (n2, s2.toNat)
  | false, false => none

def tsLoop : Nat → Nat → Q → Option (Nat × Int × Nat)
  | 0, _, _ => none
  | fuel + 1, k, x =>
    match tsCand x k with
    | some (n, s) => some (k, n, s)
    | none => tsLoop fuel (k + 1) x

/-- Layout of the chosen digits per the ECMAScript Number::toString rules. -/
def fmtDec (k : Nat) (n : Int) (s : Nat) : String :=
  let ds := (natToDec s).data
  if Int.ofNat k ≤ n && n ≤ 21 then ⟨ds ++ zeros (n - Int.ofNat k).toNat⟩
  else if 0 < n && n ≤ 21 then ⟨ds.take n.toNat ++ '.' :: ds.drop n.toNat⟩
  else if -6 < n && n ≤ 0 then ⟨'0' :: '.' :: (zeros (-n).toNat ++ ds)⟩
  else
    let e := n - 1
    let eStr := (if e < 0 then "-" else "+") ++ natToDec e.natAbs
    if k == 1 then (⟨ds⟩ : String) ++ "e" ++ eStr
    else (⟨ds.take 1⟩ : String) ++ "." ++ (⟨ds.drop 1⟩ : String) ++ "e" ++ eStr

def jsToStringPos (x : Q) : String :=
  match tsLoop 17 1 x with
  | some (k, n, s) => fmtDec k n s
  | none => "0"

/-- ECMAScript ToString applied to a JS number (`(...).toString()`). -/
def jsToString : JsNum → String
  | JsNum.nan => "NaN"
  | JsNum.posInf => "Infinity"
  | JsNum.negInf => "-Infinity"
  | JsNum.num v =>
    if v.n == 0 then "0"
    else if v.n < 0 then "-" ++ jsToStringPos (qneg v)
    else jsToStringPos v

/-- JS `BigInt(x)` for a number x: only integral finite doubles convert;
everything else throws a RangeError. -/
def bigIntOfJs : JsNum → Except String Int
  | JsNum.num v =>
    let f := qfloor v
    if qeqb v (qofInt f) then Except.ok f
    else Except.error "Cannot convert to BigInt"
  | _ => Except.error "Cannot convert to BigInt"

/-! ## Byte encodings (viem `toBytes` / `concat`)

viem's `toBytes` hex-decodes strings matching `^0x[0-9a-fA-F]*$` (left-padding
an odd-length hex body) and UTF-8-encodes every other string.  `concat` is
plain byte-list append. -/

def isHexString (s : String) : Bool :=
  hasPre "0x".data s.data && (s.data.drop 2).all isHexDigitC

def hexPairsToBytes : List Char → List Nat
  | a :: b :: rest => (hexVal a * 16 + hexVal b) :: hexPairsToBytes rest
  | _ => []

def hexToBytesList (s : String) : List Nat :=
  let h := s.data.drop 2
  let h2 := if h.length % 2 == 1 then '0' :: h else h
  hexPairsToBytes h2

def utf8Char (c : Char) : List Nat :=
  let m := c.toNat
  if m < 0x80 then [m]
  else if m < 0x800 then [0xC0 + m / 64, 0x80 + m % 64]
  else if m < 0x10000 then [0xE0 + m / 4096, 0x80 + (m / 64) % 64, 0x80 + m % 64]
  else [0xF0 + m / 262144, 0x80 + (m / 4096) % 64, 0x80 + (m / 64) % 64, 0x80 + m % 64]

def utf8Bytes (s : String) : List Nat :=
  s.data.foldr (fun c acc => utf8Char c ++ acc) []

/-- viem `toBytes` applied to a string. -/
def toBytesJs (s : String) : List Nat :=
  if isHexString s then hexToBytesList s else utf8Bytes s

/-! ## Error taxonomy of the embedded code paths -/

inductive JsError where
  /-- zod schema rejection (`transferSchema.parse` throws a ZodError). -/
  | zod (msg : String) : JsError
  /-- `AppError(message, statusCode)` from the error-handler middleware. -/
  | appError (msg : String) (status : Nat) : JsError
  /-- plain `new Error(message)`. -/
  | plainError (msg : String) : JsError
  /-- JS `RangeError` (thrown by `BigInt(NaN)` and friends). -/
  | rangeError (msg : String) : JsError
  /-- JS `SyntaxError` (thrown by `BigInt` on a malformed numeric string). -/
  | synError (msg : String) : JsError
  /-- Modelled from the spec: §4.6/§7 `PersistenceError`, the durable
  key-value store (RocksDB behind db.service, not part of the sources)
  being unavailable for a write. -/
  | persistence : JsError
deriving DecidableEq, Repr

def exceptIsOk {ε α : Type} : Except ε α → Bool
  | Except.ok _ => true
  | Except.error _ => false

instance {ε α : Type} [DecidableEq ε] [DecidableEq α] : DecidableEq (Except ε α) :=
  fun x y =>
    match x, y with
    | Except.ok a, Except.ok b =>
      match decEq a b with
      | isTrue h => isTrue (congrArg Except.ok h)
      | isFalse h => isFalse (fun hh => h (Except.ok.inj hh))
    | Except.error a, Except.error b =>
      match decEq a b with
      | isTrue h => isTrue (congrArg Except.error h)
      | isFalse h => isFalse (fun hh => h (Except.error.inj hh))
    | Except.ok _, Except.error _ => isFalse (fun hh => Except.noConfusion hh)
    | Except.error _, Except.ok _ => isFalse (fun hh => Except.noConfusion hh)

/-! ## balance.service: normalize and the fixed-point codec

Transcribed from the source: `PRECISION = BigInt(10 ** 18)`;
`toHexBalance` is `parseFloat`, float multiply by `Number(PRECISION)`,
`Math.floor`, `BigInt`, hex, `normalize`; `fromHexBalance` is `BigInt('0x'+v)`,
`Number(...)`, float divide, `toString`. -/

/-- Normalize hex string (strip a leading `0x`, pad to 64 chars). -/
def normalize (hex : String) : String :=
  let h := if hasPre "0x".data hex.data then ⟨hex.data.drop 2⟩ else hex
  if h.data.length < 64 then ⟨zeros (64 - h.data.length) ++ h.data⟩ else h

/-- `Number(PRECISION)`: the double 10^18, which is exactly representable. -/
def precisionNum : JsNum := jsOfInt (p10 18)

/-- Convert decimal string to hex for storage (balance.service
`toHexBalance`).  Note the arithmetic is performed on JS doubles and the
function has no error path of its own; the only possible throw is
`BigInt(NaN/Infinity/non-integer)`. -/
def toHexBalance (balance : String) : Except JsError String :=
  let num := parseFloat balance
  let bigVal := bigIntOfJs (jsFloor (jsMul num precisionNum))
  match bigVal with
  | Except.error m => Except.error (JsError.rangeError m)
  | Except.ok b => Except.ok (normalize (bigIntToHex b))

/-- Convert hex back to decimal string (balance.service `fromHexBalance`). -/
def fromHexBalance (value : String) : Except JsError String :=
  match parseHexNat value.data with
  | none => Except.error (JsError.synError "Cannot convert to BigInt")
  | some bigVal =>
    let num := jsDiv (jsOfInt (Int.ofNat bigVal)) precisionNum
    Except.ok (jsToString num)

/-! ## The sparse Merkle tree

Modelled from the spec: the `@cedoor/smt` library is an external dependency
whose sources are not part of this repository.  Per §9 and the glossary it is
embedded as a compact binary trie over 256-bit hashed keys whose root is
computed with the service's combining function (a hash of the concatenated
normalized child values, leaves marked), and whose `createProof` returns the
live root together with the ordered list of sibling hashes along the key's
path.  `add` and `update` both place the value at the key's leaf; the
services always guard them behind an existence check, under which the
library's add/update distinction is immaterial. -/

inductive SmtT where
  | empty : SmtT
  | leaf (key value : String) : SmtT
  | node (l r : SmtT) : SmtT
deriving DecidableEq, Repr

def keyToNat (key : String) : Nat :=
  key.data.foldl (fun a c => a * 16 + (if isHexDigitC c then hexVal c else 0)) 0

def keyBit (kN depth : Nat) : Bool :=
  if depth < 256 then Nat.testBit kN (255 - depth) else false

def splitLeaves : Nat → Nat → Nat → String → String → String → String → SmtT
  | 0, _, _, key, value, _, _ => SmtT.leaf key value
  | fuel + 1, depth, kN, key, value, k2, v2 =>
    let b1 := keyBit kN depth
    let b2 := keyBit (keyToNat k2) depth
    if b1 == b2 then
      if b1 then SmtT.node SmtT.empty (splitLeaves fuel (depth + 1) kN key value k2 v2)
      else SmtT.node (splitLeaves fuel (depth + 1) kN key value k2 v2) SmtT.empty
    else
      if b1 then SmtT.node (SmtT.leaf k2 v2) (SmtT.leaf key value)
      else SmtT.node (SmtT.leaf key value) (SmtT.leaf k2 v2)

def smtInsertAux : Nat → Nat → Nat → String → String → SmtT → SmtT
  | 0, _, _, _, _, t => t
  | _ + 1, _, _, key, value, SmtT.empty => SmtT.leaf key value
  | fuel + 1, depth, kN, key, value, SmtT.leaf k v =>
    if k == key then SmtT.leaf key value
    else splitLeaves fuel depth kN key value k v
  | fuel + 1, depth, kN, key, value, SmtT.node l r =>
    if keyBit kN depth then SmtT.node l (smtInsertAux fuel (depth + 1) kN key value r)
    else SmtT.node (smtInsertAux fuel (depth + 1) kN key value l) r

def smtInsert (key value : String) (t : SmtT) : SmtT :=
  smtInsertAux 260 0 (keyToNat key) key value t

/-- Library `add` (guarded by the services to fresh keys). -/
def smtAdd (key value : String) (t : SmtT) : SmtT := smtInsert key value t

/-- Library `update` (guarded by the services to existing keys). -/
def smtUpdate (key value : String) (t : SmtT) : SmtT := smtInsert key value t

def smtGetAux : Nat → Nat → Nat → String → SmtT → Option String
  | 0, _, _, _, _ => none
  | _, _, _, _, SmtT.empty => none
  | _ + 1, _, _, key, SmtT.leaf k v => if k == key then some v else none
  | fuel + 1, depth, kN, key, SmtT.node l r =>
    if keyBit kN depth then smtGetAux fuel (depth + 1) kN key r
    else smtGetAux fuel (depth + 1) kN key l

/-- Library `get`: the value stored at a key, if any. -/
def smtGet (key : String) (t : SmtT) : Option String :=
  smtGetAux 260 0 (keyToNat key) key t

/-- Hash of a tree node under the combining function H: the empty root is the
string of `BigInt(0)`, a leaf hashes (key, value, leaf marker), an inner node
hashes its two children. -/
def nodeHash (H : List String → String) : SmtT → String
  | SmtT.empty => "0"
  | SmtT.leaf k v => H [k, v, "1"]
  | SmtT.node l r => H [nodeHash H l, nodeHash H r]

structure SmtProofRaw where
  root : String
  sidenodes : List String
deriving DecidableEq, Repr

def collectSides (H : List String → String) : Nat → Nat → Nat → SmtT → List String
  | 0, _, _, _ => []
  | fuel + 1, depth, kN, SmtT.node l r =>
    if keyBit kN depth then nodeHash H l :: collectSides H fuel (depth + 1) kN r
    else nodeHash H r :: collectSides H fuel (depth + 1) kN l
  | _, _, _, _ => []

/-- Library `createProof`: the proof object carries the tree's current root
and the ordered sibling hashes along the key's path. -/
def smtCreateProof (H : List String → String) (key : String) (t : SmtT) : SmtProofRaw :=
  ⟨nodeHash H t, collectSides H 260 0 (keyToNat key) t⟩

/-! ## Environment

The cryptographic hash, the signature verifier (wallet.util is not among the
sources; modelled from spec §4.7 step 3 as a boolean verdict on
(wallet, signature, message)), the `SKIP_RECEIVER_SECRET_CHECK` flag from
config/env, and the clock for `Date.now()`.  All theorems below quantify over
this environment wherever it is not forced by a concrete scenario. -/

structure Env where
  /-- keccak256 over a byte list, returning a 0x-prefixed hex string. -/
  keccakBytes : List Nat → String
  /-- Modelled from the spec: `verifyWalletSignature` verdict. -/
  sigValid : String → String → String → Bool
  skipReceiverSecretCheck : Bool
  /-- `Date.now()` in milliseconds. -/
  now : Nat

def joinStr (l : List String) : String := l.foldl (fun a s => a ++ s) ""

/-- The SMT combining function passed by both services: normalize each child,
concatenate, keccak the bytes of the hex string, normalize the digest. -/
def hashNodes (env : Env) (ns : List String) : String :=
  let concatenated := joinStr (ns.map normalize)
  normalize (env.keccakBytes (toBytesJs ("0x" ++ concatenated)))

/-! ## Durable key-value store

Modelled from the spec: db.service wraps RocksDB (§4.6: ordered string-keyed
persistent store).  `failKeys` injects the §7 `PersistenceError` failure mode
(durable store unavailable) for designated keys, which is how the atomicity
claims about the write path are exercised. -/

structure DbState where
  entries : List (String × String)
  failKeys : List String
deriving DecidableEq, Repr

def upsert : List (String × String) → String → String → List (String × String)
  | [], k, v => [(k, v)]
  | (k', v') :: rest, k, v =>
    if k' == k then (k, v) :: rest else (k', v') :: upsert rest k v

def dbGet (db : DbState) (key : String) : Option String :=
  (db.entries.find? (fun e => e.1 == key)).map (fun e => e.2)

def dbPut (db : DbState) (key value : String) : Except JsError DbState :=
  if db.failKeys.contains key then Except.error JsError.persistence
  else Except.ok { db with entries := upsert db.entries key value }

/-! ## Secret store

Modelled from the spec: secret.service is not among the sources.  Per §4.2
and the §6 key layout, the per-wallet secrets live in the KV store under
`secret:balance:{wallet}` / `secret:tx:{wallet}`, and `hasAllSecrets`
requires both purposes to be set. -/

def getBalanceSecret (db : DbState) (wallet : String) : Option String :=
  dbGet db ("secret:balance:" ++ lowerStr wallet)

def getTxSecret (db : DbState) (wallet : String) : Option String :=
  dbGet db ("secret:tx:" ++ lowerStr wallet)

def hasAllSecrets (db : DbState) (wallet : String) : Bool :=
  (getBalanceSecret db wallet).isSome && (getTxSecret db wallet).isSome

/-! ## System state

The durable store plus the two in-memory trees, and an event trace recording
the order of in-memory tree writes versus durable writes (used to settle the
write-ordering claim).  Exceptions thrown mid-operation do not roll back
state already mutated, exactly as in the JS source. -/

inductive Effect where
  | smtWrite (isTx : Bool) (key value : String) : Effect
  | dbWrite (key value : String) : Effect
deriving DecidableEq, Repr

def isSmtWrite : Effect → Bool
  | Effect.smtWrite _ _ _ => true
  | _ => false

def isDbWrite : Effect → Bool
  | Effect.dbWrite _ _ => true
  | _ => false

structure SysState where
  db : DbState
  smt : SmtT
  txSmt : SmtT
  trace : List Effect
deriving DecidableEq, Repr

/-! ## balance.service -/

/-- Generate key for SMT leaf: keccak of the concatenated byte encodings of
lowercased wallet, lowercased token and the user secret (no fixed-width
normalization of the parts). -/
def generateKeyPreimage (wallet token userSecret : String) : List Nat :=
  toBytesJs (lowerStr wallet) ++ (toBytesJs (lowerStr token) ++ toBytesJs userSecret)

def generateKey (env : Env) (wallet token userSecret : String) : String :=
  normalize (env.keccakBytes (generateKeyPreimage wallet token userSecret))

/-- Get balance for wallet + token: zero when the secret or the leaf is
absent, otherwise the decoded stored leaf value. -/
def getBalance (env : Env) (st : SysState) (wallet token : String) :
    Except JsError String :=
  match getBalanceSecret st.db wallet with
  | none => Except.ok "0"
  | some userSecret =>
    let key := generateKey env wallet token userSecret
    match smtGet key st.smt with
    | some value => fromHexBalance value
    | none => Except.ok "0"

/-- Set balance for wallet + token: encode, write the in-memory leaf
(update-or-add), then persist the decimal string to the KV store.  A
persistence failure leaves the tree already mutated. -/
def setBalance (env : Env) (st : SysState) (wallet token balance : String) :
    Except JsError Unit × SysState :=
  match getBalanceSecret st.db wallet with
  | none => (Except.error (JsError.plainError "User has not set balance secret"), st)
  | some userSecret =>
    let key := generateKey env wallet token userSecret
    match toHexBalance balance with
    | Except.error e => (Except.error e, st)
    | Except.ok hexBalance =>
      let ex := smtGet key st.smt
      let newTree := if ex.isSome then smtUpdate key hexBalance st.smt
                     else smtAdd key hexBalance st.smt
      let st1 := { st with smt := newTree,
                           trace := st.trace ++ [Effect.smtWrite false key hexBalance] }
      let dbKey := "balance:" ++ lowerStr wallet ++ ":" ++ lowerStr token
      match dbPut st1.db dbKey balance with
      | Except.error e => (Except.error e, st1)
      | Except.ok db2 =>
        (Except.ok (), { st1 with db := db2,
                                  trace := st1.trace ++ [Effect.dbWrite dbKey balance] })

/-- Update balance (for transfers): same write path as `setBalance`, with the
encoding performed inside the update/add branch. -/
def updateBalance (env : Env) (st : SysState) (wallet token newBalance : String) :
    Except JsError Unit × SysState :=
  match getBalanceSecret st.db wallet with
  | none => (Except.error (JsError.plainError "User has not set balance secret"), st)
  | some userSecret =>
    let key := generateKey env wallet token userSecret
    let ex := smtGet key st.smt
    match toHexBalance newBalance with
    | Except.error e => (Except.error e, st)
    | Except.ok hexBalance =>
      let newTree := if ex.isSome then smtUpdate key hexBalance st.smt
                     else smtAdd key hexBalance st.smt
      let st1 := { st with smt := newTree,
                           trace := st.trace ++ [Effect.smtWrite false key hexBalance] }
      let dbKey := "balance:" ++ lowerStr wallet ++ ":" ++ lowerStr token
      match dbPut st1.db dbKey newBalance with
      | Except.error e => (Except.error e, st1)
      | Except.ok db2 =>
        (Except.ok (), { st1 with db := db2,
                                  trace := st1.trace ++ [Effect.dbWrite dbKey newBalance] })

structure MerkleProof where
  root : String
  siblings : List String
  key : String
  value : String
deriving DecidableEq, Repr

/-- Get merkle proof for balance. -/
def getProof (env : Env) (st : SysState) (wallet token : String) :
    Except JsError MerkleProof :=
  match getBalanceSecret st.db wallet with
  | none => Except.error (JsError.plainError "User has not set balance secret")
  | some userSecret =>
    let key := generateKey env wallet token userSecret
    let praw := smtCreateProof (hashNodes env) key st.smt
    match getBalance env st wallet token with
    | Except.error e => Except.error e
    | Except.ok balance =>
      match toHexBalance balance with
      | Except.error e => Except.error e
      | Except.ok value =>
        Except.ok { root := normalize praw.root,
                    siblings := praw.sidenodes.map normalize,
                    key := key,
                    value := value }

/-- Get current SMT root (`String(smt.root)`, not normalized). -/
def getRoot (env : Env) (st : SysState) : String :=
  nodeHash (hashNodes env) st.smt

/-- Verify a proof: the source recreates a proof for `proof.key` against the
live tree and compares only the normalized live root with `proof.root`. -/
def verifyProof (env : Env) (st : SysState) (proof : MerkleProof) : Bool :=
  let smtProof := smtCreateProof (hashNodes env) proof.key st.smt
  normalize smtProof.root == proof.root

/-! ## transaction.service -/

structure TransactionEntry where
  sender : String
  receiver : String
  token : String
  amount : String
  timestamp : Nat
deriving DecidableEq, Repr

/-- JSON string escaping (quote and backslash; the values serialized by this
system are plain ASCII without control characters). -/
def escChar (c : Char) : List Char :=
  if c == '"' then ['\\', '"']
  else if c == '\\' then ['\\', '\\']
  else [c]

def qt (s : String) : String :=
  "\"" ++ (⟨s.data.foldr (fun c acc => escChar c ++ acc) []⟩ : String) ++ "\""

def lb : String := "\x7b"

def rb : String := "\x7d"

/-- `JSON.stringify` of one TransactionEntry, fields in object-literal
order. -/
def stringifyTx (tx : TransactionEntry) : String :=
  lb ++ qt "sender" ++ ":" ++ qt tx.sender ++ "," ++
    qt "receiver" ++ ":" ++ qt tx.receiver ++ "," ++
    qt "token" ++ ":" ++ qt tx.token ++ "," ++
    qt "amount" ++ ":" ++ qt tx.amount ++ "," ++
    qt "timestamp" ++ ":" ++ natToDec tx.timestamp ++ rb

/-- `JSON.stringify` of a TransactionEntry array. -/
def stringifyTxList (txs : List TransactionEntry) : String :=
  "[" ++ joinStr (List.intersperse "," (txs.map stringifyTx)) ++ "]"

/-- `JSON.parse` restricted to the canonical TransactionEntry arrays this
system itself persists (the db values under `txdata:` are written exclusively
by `updateTxLeaf` via `stringifyTxList`); anything else is a parse error. -/
def parseJString : List Char → Option (String × List Char)
  | '"' :: rest => go 4096 rest []
  | _ => none
where
  go : Nat → List Char → List Char → Option (String × List Char)
    | 0, _, _ => none
    | _ + 1, [], _ => none
    | fuel + 1, c :: cs, acc =>
      if c == '"' then some (⟨acc.reverse⟩, cs)
      else if c == '\\' then
        match cs with
        | [] => none
        | c2 :: cs2 => go fuel cs2 (c2 :: acc)
      else go fuel cs (c :: acc)

def expectLit (lit : List Char) (cs : List Char) : Option (List Char) :=
  if hasPre lit cs then some (cs.drop lit.length) else none

def parseTxObj (cs : List Char) : Option (TransactionEntry × List Char) := do
  let cs ← expectLit lb.data cs
  let cs ← expectLit (qt "sender" ++ ":").data cs
  let (sender, cs) ← parseJString cs
  let cs ← expectLit ("," ++ qt "receiver" ++ ":").data cs
  let (receiver, cs) ← parseJString cs
  let cs ← expectLit ("," ++ qt "token" ++ ":").data cs
  let (token, cs) ← parseJString cs
  let cs ← expectLit ("," ++ qt "amount" ++ ":").data cs
  let (amount, cs) ← parseJString cs
  let cs ← expectLit ("," ++ qt "timestamp" ++ ":").data cs
  let (ds, cs) := takeDigits cs
  if ds.isEmpty then none
  else
    let cs ← expectLit rb.data cs
    some (⟨sender, receiver, token, amount, digitsToNat ds⟩, cs)

def parseTxSeq : Nat → List Char → Option (List TransactionEntry × List Char)
  | 0, _ => none
  | fuel + 1, cs => do
    let (tx, cs) ← parseTxObj cs
    match cs with
    | ',' :: cs2 => do
      let (txs, cs3) ← parseTxSeq fuel cs2
      some (tx :: txs, cs3)
    | _ => some ([tx], cs)

def parseTxList (s : String) : Except JsError (List TransactionEntry) :=
  match s.data with
  | '[' :: ']' :: rest => if rest.isEmpty then Except.ok [] else Except.error (JsError.synError "Unexpected token")
  | '[' :: cs =>
    match parseTxSeq 1024 cs with
    | some (txs, [']']) => Except.ok txs
    | _ => Except.error (JsError.synError "Unexpected token")
  | _ => Except.error (JsError.synError "Unexpected token")

/-- Generate key for transaction leaf (no timestamp — same key for the same
(sender, receiver, token) pair under one party's secret). -/
def generateTxKeyPreimage (sender receiver token userSecret : String) : List Nat :=
  toBytesJs (lowerStr sender) ++
    (toBytesJs (lowerStr receiver) ++ (toBytesJs (lowerStr token) ++ toBytesJs userSecret))

def generateTxKey (env : Env) (sender receiver token userSecret : String) : String :=
  normalize (env.keccakBytes (generateTxKeyPreimage sender receiver token userSecret))

/-- Hash transaction array for the SMT value: keccak of the UTF-8 bytes of
the JSON serialization. -/
def hashTransactions (env : Env) (txs : List TransactionEntry) : String :=
  normalize (env.keccakBytes (toBytesJs (stringifyTxList txs)))

/-- Update a transaction leaf: read the existing bucket from the KV store,
append the new record, write the in-memory leaf (update-or-add), then persist
the bucket.  A persistence failure leaves the tree already mutated. -/
def updateTxLeaf (env : Env) (st : SysState)
    (sender receiver token type userSecret : String) (newTx : TransactionEntry) :
    Except JsError Unit × SysState :=
  let dbKey := "txdata:" ++ lowerStr sender ++ ":" ++ lowerStr receiver ++ ":" ++
    lowerStr token ++ ":" ++ type
  let parsed :=
    match dbGet st.db dbKey with
    | some existing =>
      -- `existing ? JSON.parse(existing) : []`: the empty string is falsy
      if existing.data.isEmpty then Except.ok [] else parseTxList existing
    | none => Except.ok []
  match parsed with
  | Except.error e => (Except.error e, st)
  | Except.ok transactions =>
    let txs := transactions ++ [newTx]
    let smtKey := generateTxKey env sender receiver token userSecret
    let valueHash := hashTransactions env txs
    let ex := smtGet smtKey st.txSmt
    let newTree := if ex.isSome then smtUpdate smtKey valueHash st.txSmt
                   else smtAdd smtKey valueHash st.txSmt
    let st1 := { st with txSmt := newTree,
                         trace := st.trace ++ [Effect.smtWrite true smtKey valueHash] }
    match dbPut st1.db dbKey (stringifyTxList txs) with
    | Except.error e => (Except.error e, st1)
    | Except.ok db2 =>
      (Except.ok (), { st1 with db := db2,
                                trace := st1.trace ++ [Effect.dbWrite dbKey (stringifyTxList txs)] })

/-- Add transaction: requires both parties' transaction secrets, then updates
the sender-side and the receiver-side leaf in sequence. -/
def addTransaction (env : Env) (st : SysState) (sender receiver token amount : String) :
    Except JsError Nat × SysState :=
  let timestamp := env.now
  match getTxSecret st.db sender with
  | none => (Except.error (JsError.plainError "Sender has not set transaction secret"), st)
  | some senderSecret =>
    match getTxSecret st.db receiver with
    | none => (Except.error (JsError.plainError "Receiver has not set transaction secret"), st)
    | some receiverSecret =>
      let newTx : TransactionEntry := ⟨sender, receiver, token, amount, timestamp⟩
      match updateTxLeaf env st sender receiver token "sender" senderSecret newTx with
      | (Except.error e, st1) => (Except.error e, st1)
      | (Except.ok _, st1) =>
        match updateTxLeaf env st1 sender receiver token "receiver" receiverSecret newTx with
        | (Except.error e, st2) => (Except.error e, st2)
        | (Except.ok _, st2) => (Except.ok timestamp, st2)

/-- Get current transaction SMT root. -/
def getTxRoot (env : Env) (st : SysState) : String :=
  nodeHash (hashNodes env) st.txSmt

/-- Verify a transaction proof: same root-only comparison as `verifyProof`,
against the transaction tree. -/
def verifyTxProof (env : Env) (st : SysState) (proof : MerkleProof) : Bool :=
  let smtProof := smtCreateProof (hashNodes env) proof.key st.txSmt
  normalize smtProof.root == proof.root

/-! ## wallet.service: the transfer orchestrator -/

structure SendTransaction where
  /-- source field name: `from` (a Lean keyword). -/
  from_ : String
  /-- source field name: `to`. -/
  to_ : String
  token : String
  amount : String
deriving DecidableEq, Repr

structure TransferRequest where
  sendTransaction : SendTransaction
  signature : String
deriving DecidableEq, Repr

structure TransferResult where
  txHash : String
  from_ : String
  to_ : String
  token : String
  amount : String
deriving DecidableEq, Repr

def isAddrStr (s : String) : Bool :=
  match s.data with
  | '0' :: 'x' :: rest => rest.length == 40 && rest.all isHexDigitC
  | _ => false

def isSigStr (s : String) : Bool :=
  match s.data with
  | '0' :: 'x' :: rest => !rest.isEmpty && rest.all isHexDigitC
  | _ => false

/-- The zod `transferSchema`: address regexes for `from`/`to`, a
`min(1)`-length string for `token` and for `amount` (note: no numeric-format
constraint on `amount`), and a hex regex for `signature`. -/
def transferSchemaOk (body : TransferRequest) : Bool :=
  isAddrStr body.sendTransaction.from_ && isAddrStr body.sendTransaction.to_ &&
    !body.sendTransaction.token.data.isEmpty &&
    !body.sendTransaction.amount.data.isEmpty &&
    isSigStr body.signature

/-- `JSON.stringify(sendTransaction)` of the zod-parsed object, whose key
order is the schema's declaration order. -/
def stringifySendTx (s : SendTransaction) : String :=
  lb ++ qt "from" ++ ":" ++ qt s.from_ ++ "," ++ qt "to" ++ ":" ++ qt s.to_ ++ "," ++
    qt "token" ++ ":" ++ qt s.token ++ "," ++ qt "amount" ++ ":" ++ qt s.amount ++ rb

/-- `WalletService.transfer`, transcribed step by step: schema parse,
self-transfer check, signature verification, secret checks, float balance
comparison, debit, credit, ledger append, and the root as receipt.  State
mutated before a throw stays mutated. -/
def transfer (env : Env) (st : SysState) (body : TransferRequest) :
    Except JsError TransferResult × SysState :=
  if !transferSchemaOk body then (Except.error (JsError.zod "Validation failed"), st)
  else if lowerStr body.sendTransaction.from_ == lowerStr body.sendTransaction.to_ then
    (Except.error (JsError.appError "Cannot transfer to yourself" 400), st)
  else
    let message := stringifySendTx body.sendTransaction
    if !env.sigValid body.sendTransaction.from_ body.signature message then
      (Except.error (JsError.appError "Invalid signature" 401), st)
    else if !hasAllSecrets st.db body.sendTransaction.from_ then
      (Except.error (JsError.appError "Sender has not set all required secrets" 400), st)
    else
      let receiverHasSecrets := hasAllSecrets st.db body.sendTransaction.to_
      if !env.skipReceiverSecretCheck && !receiverHasSecrets then
        (Except.error (JsError.appError "Receiver has not set all required secrets" 400), st)
      else
        match getBalance env st body.sendTransaction.from_ body.sendTransaction.token with
        | Except.error e => (Except.error e, st)
        | Except.ok senderBalance =>
          let amount := parseFloat body.sendTransaction.amount
          let currentBalance := parseFloat senderBalance
          if jsLt currentBalance amount then
            (Except.error (JsError.appError "Insufficient balance" 400), st)
          else
            let newSenderBalance := jsToString (jsSub currentBalance amount)
            match updateBalance env st body.sendTransaction.from_
                body.sendTransaction.token newSenderBalance with
            | (Except.error e, st1) => (Except.error e, st1)
            | (Except.ok _, st1) =>
              -- the source has two separate `if (receiverHasSecrets)` blocks
              -- (credit, then ledger append); the flag cannot change between
              -- them, so they are embedded as one nested block
              if receiverHasSecrets then
                match getBalance env st1 body.sendTransaction.to_
                    body.sendTransaction.token with
                | Except.error e => (Except.error e, st1)
                | Except.ok receiverBalance =>
                  let newReceiverBalance :=
                    jsToString (jsAdd (parseFloat receiverBalance) amount)
                  match updateBalance env st1 body.sendTransaction.to_
                      body.sendTransaction.token newReceiverBalance with
                  | (Except.error e, st2) => (Except.error e, st2)
                  | (Except.ok _, st2) =>
                    match addTransaction env st2 body.sendTransaction.from_
                        body.sendTransaction.to_ body.sendTransaction.token
                        body.sendTransaction.amount with
                    | (Except.error e, st3) => (Except.error e, st3)
                    | (Except.ok _, st3) =>
                      (Except.ok { txHash := getRoot env st3,
                                   from_ := body.sendTransaction.from_,
                                   to_ := body.sendTransaction.to_,
                                   token := body.sendTransaction.token,
                                   amount := body.sendTransaction.amount }, st3)
              else
                (Except.ok { txHash := getRoot env st1,
                             from_ := body.sendTransaction.from_,
                             to_ := body.sendTransaction.to_,
                             token := body.sendTransaction.token,
                             amount := body.sendTransaction.amount }, st1)

/-! ## Result-shape helpers -/

def isPersistenceErr {α : Type} : Except JsError α → Bool
  | Except.error JsError.persistence => true
  | _ => false

def isRangeErr {α : Type} : Except JsError α → Bool
  | Except.error (JsError.rangeError _) => true
  | _ => false

/-! ## Concrete scenario fixtures

A deterministic stand-in keccak (an injective-in-practice polynomial fold
mod 2^256, rendered as a 0x-prefixed 64-digit hex string like the real
keccak256), an environment whose signature check accepts, and two unlocked
wallets.  Everything a universal theorem can say is quantified over `Env`;
these fixtures only serve to evaluate the code on concrete inputs. -/

def pow256 : Nat := Nat.pow 2 256

def dummyKeccak (bs : List Nat) : String :=
  "0x" ++ normalize (natToHex (bs.foldl (fun a b => (a * 257 + b + 1) % pow256) 1))

def envD : Env := ⟨dummyKeccak, fun _ _ _ => true, false, 1730000000000⟩

def wA : String := "0xaaaaaaaaaaaaaaaaaaaaaaaaaaaaaaaaaaaaaaaa"

def wB : String := "0xbbbbbbbbbbbbbbbbbbbbbbbbbbbbbbbbbbbbbbbb"

def tok : String := "0xcccccccccccccccccccccccccccccccccccccccc"

def secAbal : String := "0x1111111111111111111111111111111111111111111111111111111111111111"

def secAtx : String := "0x2222222222222222222222222222222222222222222222222222222222222222"

def secBbal : String := "0x3333333333333333333333333333333333333333333333333333333333333333"

def secBtx : String := "0x4444444444444444444444444444444444444444444444444444444444444444"

/-- Both wallets unlocked: all four secrets persisted under the spec's §6 key
layout. -/
def dbBase : DbState :=
  ⟨[("secret:balance:" ++ wA, secAbal), ("secret:tx:" ++ wA, secAtx),
    ("secret:balance:" ++ wB, secBbal), ("secret:tx:" ++ wB, secBtx)], []⟩

def st0 : SysState := ⟨dbBase, SmtT.empty, SmtT.empty, []⟩

def balKeyA : String := "balance:" ++ wA ++ ":" ++ tok

def balKeyB : String := "balance:" ++ wB ++ ":" ++ tok

/-- Two leaves in the balance tree, so proofs have non-empty siblings. -/
def stC1 : SysState := (setBalance envD (setBalance envD st0 wA tok "1").2 wB tok "2").2

def pC1 : MerkleProof := ((getProof envD stC1 wA tok).toOption).getD ⟨"", [], "", ""⟩

/-- `pC1` with its first sibling flipped to a different hash. -/
def pC1bad : MerkleProof :=
  { pC1 with siblings :=
      pC1.siblings.set 0 "ffffffffffffffffffffffffffffffffffffffffffffffffffffffffffffffff" }

/-- Durable store that refuses the receiver's balance key: the §7
`PersistenceError` striking during the credit of step 7. -/
def dbC2 : DbState := { dbBase with failKeys := [balKeyB] }

def stC2 : SysState := (setBalance envD ⟨dbC2, SmtT.empty, SmtT.empty, []⟩ wA tok "3").2

def resC2 : Except JsError TransferResult × SysState :=
  transfer envD stC2 ⟨⟨wA, wB, tok, "1"⟩, "0x01"⟩

/-- Sender unlocked with balance 1. -/
def stC3 : SysState := (setBalance envD st0 wA tok "1").2

def resC3 : Except JsError TransferResult × SysState :=
  transfer envD stC3 ⟨⟨wA, wB, tok, "0.000000000000000001"⟩, "0x01"⟩

def bodyC8 : TransferRequest := ⟨⟨wA, wB, tok, "abc"⟩, "0x01"⟩

def resC8 : Except JsError TransferResult × SysState := transfer envD stC3 bodyC8

def resC9 : Except JsError TransferResult × SysState :=
  transfer envD stC3 ⟨⟨wA, wB, tok, "1.000000000000000001"⟩, "0x01"⟩

def bodySelf : TransferRequest := ⟨⟨wA, wA, tok, "1"⟩, "0x01"⟩

def resC6set : Except JsError Unit × SysState := setBalance envD st0 wA tok "1"

def stC3t : SysState := { stC3 with trace := [] }

def resC6upd : Except JsError Unit × SysState := updateBalance envD stC3t wA tok "2"

def resC6tx : Except JsError Unit × SysState :=
  updateTxLeaf envD st0 wA wB tok "sender" secAtx ⟨wA, wB, tok, "1", envD.now⟩

/-- Durable store that refuses the sender's balance key. -/
def dbC6f : DbState := { dbBase with failKeys := [balKeyA] }

def stC6f : SysState := ⟨dbC6f, SmtT.empty, SmtT.empty, []⟩

def resC6fail : Except JsError Unit × SysState := setBalance envD stC6f wA tok "1"

/-- Helper: cancellation of a three-part concatenation at fixed-width
boundaries. -/
theorem append3_inj {α : Type} {a b c a' b' c' : List α}
    (h : a ++ (b ++ c) = a' ++ (b' ++ c'))
    (ha : a.length = a'.length) (hc : c.length = c'.length) :
    a = a' ∧ b = b' ∧ c = c' := by
  obtain ⟨h1, h2⟩ := List.append_inj h ha
  have hb : b.length = b'.length := by
    have hlen := congrArg List.length h2
    simp only [List.length_append] at hlen
    omega
  obtain ⟨h3, h4⟩ := List.append_inj h2 hb
  exact ⟨h1, h3, h4⟩

/-- Helper: cancellation of a four-part concatenation given fixed widths of
the first two and the last part. -/
theorem append4_inj {α : Type} {a b c d a' b' c' d' : List α}
    (h : a ++ (b ++ (c ++ d)) = a' ++ (b' ++ (c' ++ d')))
    (ha : a.length = a'.length) (hb : b.length = b'.length)
    (hd : d.length = d'.length) :
    a = a' ∧ b = b' ∧ c = c' ∧ d = d' := by
  obtain ⟨h1, h2⟩ := List.append_inj h ha
  obtain ⟨h3, h4⟩ := append3_inj h2 hb hd
  exact ⟨h1, h3, h4⟩

/-! ## Model sanity anchors (well-known JS double facts) -/

example : jsToString (jsSub (parseFloat "0.3") (parseFloat "0.1")) = "0.19999999999999998" := by
  decide

example : jsToString (jsAdd (parseFloat "0.1") (parseFloat "0.2")) = "0.30000000000000004" := by
  decide

example : jsvEq (parseFloat "1.000000000000000001") ⟨1, 1⟩ = true := by decide

example : jsToString (jsOfInt 9007199254740993) = "9007199254740992" := by decide

/-! ## Claims -/

/-- C1: the spec's proof-soundness property — `verify(proof(wallet, token))`
is true and flipping any single sibling makes verification false.  The first
half holds, but the code's `verifyProof` compares only `proof.root` with the
live root and never reads the siblings, so a proof with a flipped sibling
still verifies: with two leaves in the tree, the proof for wallet A has two
siblings, and replacing the first by a different hash leaves `verifyProof`
returning true; the final conjunct shows siblings are ignored on every input,
for every hash environment and state. -/
theorem C1_flipped_sibling_still_verifies :
    verifyProof envD stC1 pC1 = true ∧
    pC1bad.siblings ≠ pC1.siblings ∧
    verifyProof envD stC1 pC1bad = true ∧
    (∀ (env : Env) (st : SysState) (p : MerkleProof) (s2 : List String),
      verifyProof env st { p with siblings := s2 } = verifyProof env st p) :=
  ⟨by decide, by decide, by decide, fun _ _ _ _ => rfl⟩

/-- C2: the transfer atomicity/compensation claim fails on the code.  With
the durable store refusing the receiver's balance key, a transfer of 1 from A
(balance 3) to B aborts with the persistence error after the debit: A's
durable balance has changed from "3" to "2" (the debit is not undone before
returning), B's durable balance does not exist, and B's in-memory leaf was
already credited — a partially applied transfer is observable. -/
theorem C2_debit_not_compensated_on_persistence_failure :
    isPersistenceErr resC2.1 = true ∧
    dbGet stC2.db balKeyA = some "3" ∧
    dbGet resC2.2.db balKeyA = some "2" ∧
    dbGet resC2.2.db balKeyB = none ∧
    getBalance envD resC2.2 wB tok = Except.ok "1" := by decide

/-- C3: conservation fails on the code.  Both wallets have all secrets; A
holds "1" and transfers "0.000000000000000001" (18 fractional digits).  The
transfer succeeds, yet the float arithmetic leaves A at "1" (1 − 1e-18 rounds
to 1 in binary64) while B receives "1e-18": the exact sum of balances grows
from 1 to 1 + 10^-18 — value is created. -/
theorem C3_conservation_violated :
    exceptIsOk resC3.1 = true ∧
    getBalance envD stC3 wA tok = Except.ok "1" ∧
    getBalance envD stC3 wB tok = Except.ok "0" ∧
    getBalance envD resC3.2 wA tok = Except.ok "1" ∧
    getBalance envD resC3.2 wB tok = Except.ok "1e-18" ∧
    qeqb (qadd ((decStrToQ "1").getD qzero) ((decStrToQ "1e-18").getD qzero))
      (qadd ((decStrToQ "1").getD qzero) ((decStrToQ "0").getD qzero)) = false := by decide

/-- C4: `verifyProof` (and `verifyTxProof`) returns true exactly when the
proof's `root` field equals the normalized current root of the live in-memory
tree; the `siblings`, `key` and `value` fields have no influence — the
right-hand sides mention only `p.root`, and replacing the other three fields
by anything leaves the verdict unchanged. -/
theorem C4_verification_compares_root_only (env : Env) (st : SysState) (p : MerkleProof) :
    verifyProof env st p = (normalize (getRoot env st) == p.root) ∧
    verifyTxProof env st p = (normalize (getTxRoot env st) == p.root) ∧
    (∀ s2 k2 v2, verifyProof env st ⟨p.root, s2, k2, v2⟩ = verifyProof env st p) ∧
    (∀ s2 k2 v2, verifyTxProof env st ⟨p.root, s2, k2, v2⟩ = verifyTxProof env st p) :=
  ⟨rfl, rfl, fun _ _ _ => rfl, fun _ _ _ => rfl⟩

/-- C5: the round-trip codec claim fails on the code.  The decimal string
"1.000000000000000001" has 18 fractional digits and magnitude ~1, yet
`fromHexBalance(toHexBalance(x))` returns "1" (parseFloat already rounds the
input to the double 1.0); and an input with 19 fractional digits is accepted
silently (scaled to zero) instead of failing with a PrecisionError — the
codec has no error path for excess precision at all. -/
theorem C5_codec_round_trip_fails :
    (toHexBalance "1.000000000000000001").bind fromHexBalance = Except.ok "1" ∧
    "1" ≠ "1.000000000000000001" ∧
    toHexBalance "0.0000000000000000001" =
      Except.ok "0000000000000000000000000000000000000000000000000000000000000000" := by decide

/-- C6: the durable-write-first ordering claim fails on the code.  In
`setBalance`, `updateBalance` and `updateTxLeaf` the recorded effect order is
in-memory tree write first, durable write second; and when the durable write
fails, the operation returns with the tree already mutated while the store is
untouched — `getBalance` then serves "1" from the tree although no durable
record exists, i.e. the durable store is behind the in-memory tree, the exact
state the claimed ordering is meant to exclude. -/
theorem C6_tree_mutated_before_durable_write :
    resC6set.2.trace.map isSmtWrite = [true, false] ∧
    resC6set.2.trace.map isDbWrite = [false, true] ∧
    resC6upd.2.trace.map isSmtWrite = [true, false] ∧
    resC6upd.2.trace.map isDbWrite = [false, true] ∧
    resC6tx.2.trace.map isSmtWrite = [true, false] ∧
    resC6tx.2.trace.map isDbWrite = [false, true] ∧
    isPersistenceErr resC6fail.1 = true ∧
    resC6fail.2.trace.map isSmtWrite = [true] ∧
    resC6fail.2.db.entries = stC6f.db.entries ∧
    getBalance envD resC6fail.2 wA tok = Except.ok "1" := by decide

/-- C7 counterexample: the pre-hash byte string is not an injective function
of the `(wallet, token, secret)` tuple.  viem's `toBytes` hex-decodes token
"0x61" but UTF-8-encodes token "a", and both encode to the byte 0x61, so two
distinct tuples produce identical concatenated pre-hash bytes (and therefore
identical tree keys). -/
theorem C7_preimage_collision :
    generateKeyPreimage wA "0x61" secAbal = generateKeyPreimage wA "a" secAbal ∧
    ("0x61" : String) ≠ "a" ∧
    generateKey envD wA "0x61" secAbal = generateKey envD wA "a" secAbal := by decide

/-- C7 amended: equal pre-hash byte strings only pin down the three (resp.
four) fields' byte encodings, provided the wallet(s) and secret encode to
their fixed widths (20 bytes for an address, 32 for a secret); tuple-level
injectivity fails because distinct field strings can share one encoding. -/
theorem C7_fixed_width_boundaries :
    (∀ w w' t t' s s' : String,
      (toBytesJs (lowerStr w)).length = 20 → (toBytesJs (lowerStr w')).length = 20 →
      (toBytesJs s).length = 32 → (toBytesJs s').length = 32 →
      generateKeyPreimage w t s = generateKeyPreimage w' t' s' →
      toBytesJs (lowerStr w) = toBytesJs (lowerStr w') ∧
        toBytesJs (lowerStr t) = toBytesJs (lowerStr t') ∧
        toBytesJs s = toBytesJs s') ∧
    (∀ a a' b b' t t' s s' : String,
      (toBytesJs (lowerStr a)).length = 20 → (toBytesJs (lowerStr a')).length = 20 →
      (toBytesJs (lowerStr b)).length = 20 → (toBytesJs (lowerStr b')).length = 20 →
      (toBytesJs s).length = 32 → (toBytesJs s').length = 32 →
      generateTxKeyPreimage a b t s = generateTxKeyPreimage a' b' t' s' →
      toBytesJs (lowerStr a) = toBytesJs (lowerStr a') ∧
        toBytesJs (lowerStr b) = toBytesJs (lowerStr b') ∧
        toBytesJs (lowerStr t) = toBytesJs (lowerStr t') ∧
        toBytesJs s = toBytesJs s') := by
  constructor
  · intro w w' t t' s s' hw hw' hs hs' h
    unfold generateKeyPreimage at h
    exact append3_inj h (hw.trans hw'.symm) (hs.trans hs'.symm)
  · intro a a' b b' t t' s s' ha ha' hb hb' hs hs' h
    unfold generateTxKeyPreimage at h
    exact append4_inj h (ha.trans ha'.symm) (hb.trans hb'.symm) (hs.trans hs'.symm)

/-- Witness for the amended C7 statement at concrete fixed-width inputs. -/
theorem C7_fixed_width_boundaries_witness :
    toBytesJs (lowerStr wA) = toBytesJs (lowerStr wA) ∧
    toBytesJs (lowerStr tok) = toBytesJs (lowerStr tok) ∧
    toBytesJs secAbal = toBytesJs secAbal :=
  C7_fixed_width_boundaries.1 wA wA tok tok secAbal secAbal
    (by decide) (by decide) (by decide) (by decide) rfl

/-- C8: the claim that a non-numeric amount fails step-1 structural
validation with a ValidationError is false on the code.  The zod schema only
requires `amount` to be a non-empty string, so "abc" passes validation; the
call then proceeds past the signature, secret and balance checks (NaN makes
the insufficient-balance comparison false) and dies inside `toHexBalance`
with a RangeError from `BigInt(NaN)` — an uncontrolled internal error, not a
ValidationError — with the balance and ledger state untouched. -/
theorem C8_nonnumeric_amount_passes_validation :
    transferSchemaOk bodyC8 = true ∧
    isRangeErr resC8.1 = true ∧
    resC8.2 = stC3 := by decide

/-- C9: the insufficient-balance claim fails on the code at float resolution.
The amount "1.000000000000000001" exceeds A's balance "1" as an exact decimal
(first conjunct), but both parse to the double 1.0, so the guard
`currentBalance < amount` does not fire and the transfer succeeds, debiting A
to "0" and crediting B with "1". -/
theorem C9_overdraft_within_float_resolution_succeeds :
    qlt ((decStrToQ "1").getD qzero) ((decStrToQ "1.000000000000000001").getD qzero) = true ∧
    getBalance envD stC3 wA tok = Except.ok "1" ∧
    exceptIsOk resC9.1 = true ∧
    getBalance envD resC9.2 wA tok = Except.ok "0" ∧
    getBalance envD resC9.2 wB tok = Except.ok "1" := by decide

/-- C10: a schema-valid transfer request with `from = to` always fails with
the self-transfer error (`AppError('Cannot transfer to yourself', 400)`) and
leaves the entire state — balances, trees, durable store and trace —
unchanged, for every environment and state. -/
theorem C10_self_transfer_rejected (env : Env) (st : SysState) (body : TransferRequest)
    (hOk : transferSchemaOk body = true)
    (hSelf : body.sendTransaction.from_ = body.sendTransaction.to_) :
    transfer env st body =
      (Except.error (JsError.appError "Cannot transfer to yourself" 400), st) := by
  simp [transfer, hOk, hSelf]

/-- Witness for C10 at a concrete schema-valid self-transfer request. -/
theorem C10_self_transfer_rejected_witness :
    transferSchemaOk bodySelf = true ∧
    transfer envD st0 bodySelf =
      (Except.error (JsError.appError "Cannot transfer to yourself" 400), st0) :=
  ⟨by decide, C10_self_transfer_rejected envD st0 bodySelf (by decide) rfl⟩

end SnarkLab





